import Mathlib

/-!
Verification of the mapbox-gl choropleth grid layer
(`src/layer.ts`, `src/shaders.ts`) against its specification.

The embedding models JS numbers for angular quantities and opacity as exact
rationals, colors as naturals (the spec fixes colors to integers in
[0, 255]), and fallible JS code (thrown errors) as `Except String`.
The Mercator y-projection of a latitude is transcendental in mapbox-gl and
is kept abstract as a function parameter; the x-projection is linear in
longitude per the spec's projection contract.
-/

namespace ChoroplethGrid

/-- An RGBA color. The source type is a 4-tuple of JS numbers; the spec's
data model fixes colors to integers in [0, 255], so components are modelled
as naturals (the JS lower-bound check `x >= 0` is then automatic). -/
structure Color where
  r : Nat
  g : Nat
  b : Nat
  a : Nat
  deriving DecidableEq

/-- The four components of a color in the order they are pushed into the
packed byte buffer (`flat.push(...item)` in `createLayer`). -/
def rgbaToList (c : Color) : List Nat := [c.r, c.g, c.b, c.a]

/-- Options record of `createLayer` (`IChoroplethGridLayerOptions` in
`src/layer.ts`). Rows of `dataGrid` are `Option (List T)` because JS arrays
may hold `undefined` rows, which the validation code inspects. -/
structure LayerOptions (T : Type) where
  dataGrid : List (Option (List T))
  getColor : T → Color
  stepLng : ℚ
  stepLat : ℚ
  offsetLng : ℚ
  offsetLat : ℚ
  opacity : ℚ

/-- The row-uniformity scan of `verifyOptions` (`src/layer.ts` line 29:
`dataArray.every(row => row.length === dataArray[0]?.length)`). Reading
`.length` of an `undefined` row throws a TypeError in JS, modelled as an
error result; a length mismatch makes `every` return false, upon which
`verifyOptions` throws the non-uniform-dimensions error. -/
def checkRowsUniform {T : Type} (firstLen : Option Nat) :
    List (Option (List T)) → Except String Unit
  | [] => .ok ()
  | none :: _ =>
    .error "TypeError: Cannot read properties of undefined (reading length)"
  | some r :: rest =>
    if some r.length = firstLen then checkRowsUniform firstLen rest
    else .error "Data array dimensions are not uniform."

/-- `verifyOptions` from `src/layer.ts` (lines 16-38), checks in source
order. Note the second guard tests `offset.lat > 180`, exactly as the
source does on line 20. -/
def verifyOptions {T : Type} (o : LayerOptions T) : Except String Unit :=
  if o.offsetLat < -90 ∨ o.offsetLat > 90 then
    .error "Offset latitude must be between -90 and 90."
  else if o.offsetLng < -180 ∨ o.offsetLat > 180 then
    .error "Offset longitude must be between -180 and 180."
  else if o.stepLat ≤ 0 ∨ o.stepLat > 180 then
    .error "Step size latitude must be greater than 0 and less than or equal to 180."
  else if o.stepLng ≤ 0 ∨ o.stepLng > 360 then
    .error "Step size must be greater than 0 and less than or equal to 360."
  else
    match checkRowsUniform ((o.dataGrid.headD none).map List.length) o.dataGrid with
    | .error e => .error e
    | .ok _ =>
      if ¬ o.dataGrid.all (fun row => row.isSome) then
        .error "A row in the data grid is undefined."
      else if o.opacity < 0 ∨ o.opacity > 1 then
        .error "Opacity must be greater than or equal to 0 and less than or equal to 1."
      else .ok ()

/-- The per-cell color range check of `createLayer` (`src/layer.ts` lines
46-48: `color.every(x => x >= 0 && x <= 255)`); components are naturals, so
only the upper bound is substantive. -/
def checkColor (c : Color) : Except String Color :=
  if c.r ≤ 255 ∧ c.g ≤ 255 ∧ c.b ≤ 255 ∧ c.a ≤ 255 then .ok c
  else .error "Color values must be between 0 and 255."

/-- The `colorGrid` computation of `createLayer` (lines 44-50): maps
`getColor` over every cell, checking each color's range. A row that is
`undefined` would make `row.map` throw in JS (unreachable after
validation). -/
def computeColorGrid {T : Type} (getColor : T → Color) :
    List (Option (List T)) → Except String (List (List Color))
  | [] => .ok []
  | none :: _ =>
    .error "TypeError: Cannot read properties of undefined (reading map)"
  | some r :: rest => do
    let colors ← r.mapM (fun p => checkColor (getColor p))
    let others ← computeColorGrid getColor rest
    .ok (colors :: others)

/-- The part of the layer handle relevant to construction: the grid
dimensions (`gridSize`, lines 53-56) and the computed color grid captured
by the closure for `onAdd`. -/
structure LayerHandle where
  gridSizeX : Nat
  gridSizeY : Nat
  colorGrid : List (List Color)
  deriving DecidableEq

/-- `createLayer` up to the returned handle: validation, color grid
computation, and `gridSize` (x = number of rows of `dataGrid`, y = length
of the first row when nonempty, otherwise 0). GPU work happens only later,
inside `onAdd`. -/
def createLayer {T : Type} (o : LayerOptions T) : Except String LayerHandle := do
  let _ ← verifyOptions o
  let cg ← computeColorGrid o.getColor o.dataGrid
  let gy := if 0 < cg.length then (cg.headD []).length else 0
  .ok ⟨cg.length, gy, cg⟩

/-- Fallback color for JS indexing `row[i]`; never reached on validated
rectangular grids. -/
def defaultColor : Color := ⟨0, 0, 0, 0⟩

/-- The transpose step of `onAdd` (`src/layer.ts` line 133:
`colorGridFirstRow.map((_, i) => colorGrid.map(row => row[i]))`). -/
def transposeGrid (g : List (List Color)) : List (List Color) :=
  match g with
  | [] => []
  | r0 :: _ =>
    (List.range r0.length).map (fun i => g.map (fun row => row.getD i defaultColor))

/-- The packed texture byte list of `onAdd` (lines 133-141): transpose,
reverse the rows, then flatten each color into its four components (the
`flat` array fed to `Uint8Array`; on validated integer colors in [0, 255]
that conversion is the identity). -/
def packGridData (g : List (List Color)) : List Nat :=
  (((transposeGrid g).reverse).map (fun row => (row.map rgbaToList).flatten)).flatten

/-- The internal-consistency guard of `onAdd` (line 143:
`gridSize.x * gridSize.y * 4 !== gridData.length`). -/
def bufferLengthMismatch (x y : Nat) (buf : List Nat) : Bool :=
  x * y * 4 != buf.length

/-- The early return of `onAdd` (lines 129-131): when `gridSize.x = 0` the
hook returns before any texture data is prepared or any texture created;
otherwise it packs the color grid for the texture upload. -/
def onAddTextureData (h : LayerHandle) : Option (List Nat) :=
  if h.gridSizeX = 0 then none else some (packGridData h.colorGrid)

/-- Modelled from the spec: the supported projection's x-coordinate, linear
in longitude. This is the x-component of mapbox-gl's
`MercatorCoordinate.fromLngLat` (Web Mercator, x = (180 + lng) / 360);
mapbox-gl is an external dependency, so the formula follows the spec's
projection contract (x maps linearly to longitude). -/
def mercatorX (lng : ℚ) : ℚ := (180 + lng) / 360

/-- Modelled from the spec: the full projection to Mercator space. The
x-coordinate is linear in longitude and independent of latitude; the
y-coordinate is a function of latitude alone (`latProj`), kept abstract
because it is transcendental in mapbox-gl; the spec requires only that it
is monotonic, assumed where needed. -/
def mercator (latProj : ℚ → ℚ) (lng lat : ℚ) : ℚ × ℚ := (mercatorX lng, latProj lat)

/-- `lngStepMercator` from `createLayer` (lines 93-97): the single pair of
projection calls at the grid's south-west corner, subtracting the two
x-coordinates. -/
def lngStepMercator (latProj : ℚ → ℚ) (swLng swLat stepLng : ℚ) : ℚ :=
  (mercator latProj (swLng + stepLng) swLat).1 - (mercator latProj swLng swLat).1

/-- The latitude-step loop of `createLayer` (lines 85-89:
`for(let lat = ne.lat; lat >= sw.lat; lat -= stepSize.lat) push(proj(lat))`).
`south` is `dataBounds.sw.lat`, `proj` the Mercator y-projection of a
latitude, and the trailing argument the running loop variable, started at
`dataBounds.ne.lat`. The JS while-loop is rendered as a fuel-indexed
recursion; every fuel bound large enough for the loop to run to completion
yields the same list (see `latStepsMercator_eq_map`), which is the loop's
output. -/
def latStepsMercator (proj : ℚ → ℚ) (south step : ℚ) : Nat → ℚ → List ℚ
  | 0, _ => []
  | fuel + 1, lat =>
    if south ≤ lat then proj lat :: latStepsMercator proj south step fuel (lat - step)
    else []

/-- The latitude-index loop of the fragment shader (`getFragmentSource`,
`src/shaders.ts` lines 35-42): `latIndexInt` starts at 0; at entry `i`, if
the fragment's Mercator y is ≥ the table entry, the index becomes `i`,
otherwise the loop breaks. `i` is the index of the entry at the head of the
list argument, `acc` the current `latIndexInt`. -/
def latIndexScan (y : ℚ) : List ℚ → Nat → Nat → Nat
  | [], _, acc => acc
  | t :: ts, i, acc => if t ≤ y then latIndexScan y ts (i + 1) i else acc

/-- The shader's latitude index for a fragment's Mercator y over the
latitude step table. -/
def latIndexShader (y : ℚ) (table : List ℚ) : Nat := latIndexScan y table 0 0

/-- Non-breaking scan helper: like `latIndexScan` but never stops early. -/
def latIndexNoBreakGo (y : ℚ) : List ℚ → Nat → Nat → Nat
  | [], _, acc => acc
  | t :: ts, i, acc => latIndexNoBreakGo y ts (i + 1) (if t ≤ y then i else acc)

/-- The full (non-breaking) scan the specification compares against: visit
every entry, recording the last index whose table value is ≤ y (0 when no
entry qualifies). -/
def latIndexNoBreak (y : ℚ) (table : List ℚ) : Nat :=
  latIndexNoBreakGo y table 0 0

/-- Nearest-neighbor, clamp-to-edge texel index for a normalized texture
coordinate over an axis of `size` texels: ⌊coord * size⌋ clamped to
[0, size - 1] (`onAdd` sets NEAREST filtering and CLAMP_TO_EDGE wrapping on
both axes, lines 150-153). -/
def texelIndex (coord : ℚ) (size : Nat) : Nat :=
  min (size - 1) (Int.toNat ⌊coord * size⌋)

/-- Sampling one RGBA texel of the uploaded `gridSize.x × gridSize.y`
texture at normalized coordinates (u, v): texel (tx, ty) reads the four
consecutive bytes at row-major texel position ty * width + tx
(`texImage2D` uploads the packed buffer row-major with width
`gridSize.x`, line 155). -/
def sampleTexture (buf : List Nat) (width height : Nat) (u v : ℚ) : List Nat :=
  let tx := texelIndex u width
  let ty := texelIndex v height
  [buf.getD ((ty * width + tx) * 4) 0,
   buf.getD ((ty * width + tx) * 4 + 1) 0,
   buf.getD ((ty * width + tx) * 4 + 2) 0,
   buf.getD ((ty * width + tx) * 4 + 3) 0]

/-- The fragment shader's cell lookup (`getFragmentSource` main body) for a
fragment already expressed in Mercator coordinates (fx, fy): longitude
index by floored division (line 32), latitude index by the table scan
(lines 35-42), then the texture sample at
(lngIndex / gridSize.x, latIndex / gridSize.y) (lines 47-49). -/
def fragmentLookup (minX lngStep : ℚ) (table : List ℚ) (gx gy : Nat)
    (buf : List Nat) (fx fy : ℚ) : List Nat :=
  let li : ℤ := ⌊(fx - minX) / lngStep⌋
  let ti : Nat := latIndexShader fy table
  sampleTexture buf gx gy ((li : ℚ) / gx) ((ti : ℚ) / gy)

/-- True exactly when construction threw, so no layer handle was
produced. -/
def isError (res : Except String LayerHandle) : Bool :=
  match res with
  | .error _ => true
  | .ok _ => false

/-- The uniformity scan errors on every row list that contains an
`undefined` row: either the scan reaches the row and JS throws a TypeError
reading its `.length`, or an earlier row already failed the length
comparison. -/
theorem checkRowsUniform_error_of_mem_none {T : Type} (fl : Option Nat) :
    ∀ rows : List (Option (List T)), none ∈ rows →
      ∃ e, checkRowsUniform fl rows = .error e
  | [], h => absurd h (by simp)
  | none :: _, _ => ⟨_, rfl⟩
  | some r :: rest, h => by
    have hrest : none ∈ rest := by
      rcases List.mem_cons.mp h with h' | h'
      · exact absurd h' (by simp)
      · exact h'
    obtain ⟨e, he⟩ := checkRowsUniform_error_of_mem_none fl rest hrest
    unfold checkRowsUniform
    split_ifs
    · exact ⟨e, he⟩
    · exact ⟨_, rfl⟩

/-- Validation errors on every options record whose grid contains an
`undefined` row. -/
theorem verifyOptions_error_of_mem_none {T : Type} (o : LayerOptions T)
    (h : none ∈ o.dataGrid) : ∃ e, verifyOptions o = .error e := by
  obtain ⟨e, he⟩ :=
    checkRowsUniform_error_of_mem_none ((o.dataGrid.headD none).map List.length)
      o.dataGrid h
  unfold verifyOptions
  split_ifs <;> first
    | exact ⟨_, rfl⟩
    | exact ⟨e, by rw [he]⟩

/-- C9: for every dataGrid containing an undefined row, createLayer fails
synchronously at construction: the failure is reported immediately and
prevents handle creation (GPU work only ever happens in `onAdd`, which
needs a handle). -/
theorem C9_undefined_row_fails {T : Type} (o : LayerOptions T)
    (h : none ∈ o.dataGrid) : isError (createLayer o) = true := by
  obtain ⟨e, he⟩ := verifyOptions_error_of_mem_none o h
  unfold createLayer
  rw [he]
  rfl

/-- C9 witness: a concrete grid with an undefined row is rejected. -/
theorem C9_undefined_row_fails_witness :
    none ∈ ([some [1], none] : List (Option (List Nat))) ∧
      isError (createLayer (T := Nat)
        ⟨[some [1], none], fun _ => ⟨0, 0, 0, 255⟩, 1, 1, 0, 0, 1⟩) = true :=
  ⟨by simp, C9_undefined_row_fails _ (by simp)⟩

/-- C4: the claim states that every configuration with `offset.lng` outside
[-180, 180] fails validation. The code's guard on line 20 tests
`offset.lat > 180` instead of `offset.lng > 180`, so `offset.lng = 200`
with all other fields valid passes validation and a layer handle IS
created, contradicting the claim (and the error message on line 21). -/
theorem C4_out_of_range_lng_accepted :
    createLayer (T := Nat)
        ⟨[some [1]], fun _ => ⟨0, 0, 0, 255⟩, 1, 1, 200, 0, 1⟩
      = .ok ⟨1, 1, [[⟨0, 0, 0, 255⟩]]⟩ := by rfl

/-- C8: each listed configuration makes createLayer fail synchronously
during validation (the model's `createLayer` is the pure construction
phase; GPU resources are only touched by `onAdd` on a successfully created
handle): offset.lat = 95; stepSize.lng = 0; the jagged grid [[1,2],[1]]; a
getColor result of [300,0,0,255]; opacity = 1.5. -/
theorem C8_validation_rejects :
    createLayer (T := Nat) ⟨[some [1]], fun _ => ⟨0, 0, 0, 255⟩, 1, 1, 0, 95, 1⟩
        = .error "Offset latitude must be between -90 and 90." ∧
    createLayer (T := Nat) ⟨[some [1]], fun _ => ⟨0, 0, 0, 255⟩, 0, 1, 0, 0, 1⟩
        = .error "Step size must be greater than 0 and less than or equal to 360." ∧
    createLayer (T := Nat) ⟨[some [1, 2], some [1]], fun _ => ⟨0, 0, 0, 255⟩, 1, 1, 0, 0, 1⟩
        = .error "Data array dimensions are not uniform." ∧
    createLayer (T := Nat) ⟨[some [1]], fun _ => ⟨300, 0, 0, 255⟩, 1, 1, 0, 0, 1⟩
        = .error "Color values must be between 0 and 255." ∧
    createLayer (T := Nat) ⟨[some [1]], fun _ => ⟨0, 0, 0, 255⟩, 1, 1, 0, 0, 3/2⟩
        = .error "Opacity must be greater than or equal to 0 and less than or equal to 1." := by
  refine ⟨by rfl, by rfl, by rfl, by rfl, ?_⟩
  have h : createLayer (T := Nat) ⟨[some [1]], fun _ => ⟨0, 0, 0, 255⟩, 1, 1, 0, 0, 3/2⟩
      = createLayer (T := Nat) ⟨[some [1]], fun _ => ⟨0, 0, 0, 255⟩, 1, 1, 0, 0, Rat.divInt 3 2⟩ := by
    norm_num [Rat.divInt_eq_div]
  rw [h]
  rfl

/-- C10: for the empty grid with all other options valid, createLayer
succeeds with gridSize (0, 0), and `onAdd` returns early before preparing
or creating any texture. -/
theorem C10_empty_grid_ok {T : Type} (getColor : T → Color)
    (stepLng stepLat offsetLng offsetLat opacity : ℚ)
    (h1 : -90 ≤ offsetLat) (h2 : offsetLat ≤ 90)
    (h3 : -180 ≤ offsetLng) (h4 : offsetLng ≤ 180)
    (h5 : 0 < stepLat) (h6 : stepLat ≤ 180)
    (h7 : 0 < stepLng) (h8 : stepLng ≤ 360)
    (h9 : 0 ≤ opacity) (h10 : opacity ≤ 1) :
    createLayer ⟨[], getColor, stepLng, stepLat, offsetLng, offsetLat, opacity⟩
        = .ok ⟨0, 0, []⟩ ∧
      onAddTextureData ⟨0, 0, []⟩ = none := by
  refine ⟨?_, rfl⟩
  have hv : verifyOptions (T := T)
      ⟨[], getColor, stepLng, stepLat, offsetLng, offsetLat, opacity⟩ = .ok () := by
    unfold verifyOptions
    dsimp only
    rw [if_neg (by push_neg; exact ⟨by linarith, by linarith⟩),
      if_neg (by push_neg; exact ⟨by linarith, by linarith⟩),
      if_neg (by push_neg; exact ⟨by linarith, by linarith⟩),
      if_neg (by push_neg; exact ⟨by linarith, by linarith⟩)]
    dsimp only [checkRowsUniform, List.all_nil]
    rw [if_neg (by simp), if_neg (by push_neg; exact ⟨by linarith, by linarith⟩)]
  unfold createLayer
  rw [hv]
  rfl

/-- C10 witness: a concrete empty-grid configuration succeeds with
gridSize (0, 0) and no texture preparation. -/
theorem C10_empty_grid_ok_witness :
    ((-90 : ℚ) ≤ 0 ∧ (0 : ℚ) ≤ 90 ∧ (-180 : ℚ) ≤ 0 ∧ (0 : ℚ) ≤ 180 ∧
      (0 : ℚ) < 1 ∧ (1 : ℚ) ≤ 180 ∧ (1 : ℚ) ≤ 360 ∧ (0 : ℚ) ≤ 1 ∧ (1 : ℚ) ≤ 1) ∧
    (createLayer (T := Nat) ⟨[], fun _ => ⟨0, 0, 0, 255⟩, 1, 1, 0, 0, 1⟩
        = .ok ⟨0, 0, []⟩ ∧
      onAddTextureData ⟨0, 0, []⟩ = none) :=
  ⟨by norm_num,
    C10_empty_grid_ok (fun _ => ⟨0, 0, 0, 255⟩) 1 1 0 0 1
      (by norm_num) (by norm_num) (by norm_num) (by norm_num) (by norm_num)
      (by norm_num) (by norm_num) (by norm_num) (by norm_num) (by norm_num)⟩

/-- Once the running latitude has dropped below the south bound the loop
stops without emitting anything, whatever fuel remains. -/
theorem latStepsMercator_nil (proj : ℚ → ℚ) (south step : ℚ) :
    ∀ (fuel : Nat) (lat : ℚ), lat < south →
      latStepsMercator proj south step fuel lat = []
  | 0, _, _ => rfl
  | _ + 1, lat, h => by
    unfold latStepsMercator
    rw [if_neg (by linarith)]

/-- Characterization of the latitude-step loop: started at
`south + n * step` with positive step and any sufficient fuel, it emits
exactly the projections of the n + 1 latitudes `start - k * step`,
k = 0 .. n, in that order. Every fuel bound of at least n + 1 yields this
same list, so it is the output of the source's unbounded while-loop. -/
theorem latStepsMercator_eq_map (proj : ℚ → ℚ) (south step : ℚ) (hstep : 0 < step) :
    ∀ (n fuel : Nat), n + 1 ≤ fuel → ∀ lat : ℚ, lat = south + (n : ℚ) * step →
      latStepsMercator proj south step fuel lat
        = (List.range (n + 1)).map (fun k : Nat => proj (lat - (k : ℚ) * step)) := by
  intro n
  induction n with
  | zero =>
    intro fuel hfuel lat hlat
    obtain ⟨f, rfl⟩ : ∃ f, fuel = f + 1 := ⟨fuel - 1, by omega⟩
    unfold latStepsMercator
    rw [if_pos (by rw [hlat]; push_cast; linarith)]
    rw [latStepsMercator_nil proj south step f (lat - step) (by rw [hlat]; push_cast; linarith)]
    rw [show List.range (0 + 1) = [0] from rfl, List.map_singleton]
    norm_num
  | succ n ih =>
    intro fuel hfuel lat hlat
    obtain ⟨f, rfl⟩ : ∃ f, fuel = f + 1 := ⟨fuel - 1, by omega⟩
    unfold latStepsMercator
    rw [if_pos (by rw [hlat]; push_cast; nlinarith [Nat.cast_nonneg (α := ℚ) n])]
    rw [ih f (by omega) (lat - step) (by rw [hlat]; push_cast; ring)]
    conv_rhs => rw [List.range_succ_eq_map]
    rw [List.map_cons, List.map_map]
    congr 1
    · congr 1
      push_cast
      ring
    · apply List.map_congr_left
      intro k _
      simp only [Function.comp_apply]
      congr 1
      push_cast
      ring

/-- The sequence of latitudes the step loop visits when started at
`south + n * step`: `north - k * step` for k = 0 .. n. -/
def latTraversal (south step : ℚ) (n : Nat) : List ℚ :=
  (List.range (n + 1)).map (fun k : Nat => south + (n : ℚ) * step - (k : ℚ) * step)

/-- C3: started at the north bound `south + rowCount * step`, the latitude
step loop emits exactly rowCount + 1 entries, namely the projections of the
latitudes `north - k * step` for k = 0 .. rowCount, whose traversal is
strictly north-to-south; the first entry is the projection of the north
bound and the last the projection of the south bound. Latitudes are exact
rationals (the JS doubles modelled without rounding error). -/
theorem C3_lat_steps_count_and_order (proj : ℚ → ℚ) (south step : ℚ) (n fuel : Nat)
    (hstep : 0 < step) (hfuel : n + 1 ≤ fuel) :
    latStepsMercator proj south step fuel (south + (n : ℚ) * step)
        = (latTraversal south step n).map proj ∧
      (latStepsMercator proj south step fuel (south + (n : ℚ) * step)).length = n + 1 ∧
      (latTraversal south step n).Sorted (fun a b => a > b) ∧
      (latStepsMercator proj south step fuel (south + (n : ℚ) * step)).head?
        = some (proj (south + (n : ℚ) * step)) ∧
      (latStepsMercator proj south step fuel (south + (n : ℚ) * step)).getLast?
        = some (proj south) := by
  have hmain := latStepsMercator_eq_map proj south step hstep n fuel hfuel
    (south + (n : ℚ) * step) rfl
  have hmap : (latTraversal south step n).map proj
      = (List.range (n + 1)).map
          (fun k : Nat => proj (south + (n : ℚ) * step - (k : ℚ) * step)) := by
    unfold latTraversal
    rw [List.map_map]
    rfl
  refine ⟨by rw [hmain, hmap], ?_, ?_, ?_, ?_⟩
  · rw [hmain]
    simp
  · show (latTraversal south step n).Pairwise (fun a b => a > b)
    unfold latTraversal
    refine List.Pairwise.map _ ?_ (List.pairwise_lt_range (n + 1))
    intro a b hab
    have hab' : (a : ℚ) < (b : ℚ) := by exact_mod_cast hab
    have hmul : (a : ℚ) * step < (b : ℚ) * step := by nlinarith
    show south + (n : ℚ) * step - (a : ℚ) * step > south + (n : ℚ) * step - (b : ℚ) * step
    linarith
  · rw [hmain, List.range_succ_eq_map, List.map_cons, List.head?_cons]
    norm_num
  · rw [hmain, List.getLast?_map]
    have hlast : (List.range (n + 1)).getLast? = some n := by
      simp [List.range_succ]
    rw [hlast]
    show some (proj (south + (n : ℚ) * step - (n : ℚ) * step)) = some (proj south)
    exact congrArg (fun q => some (proj q))
      (by ring : south + (n : ℚ) * step - (n : ℚ) * step = south)

/-- C3 witness: with the identity as projection, south bound 0, step 1 and
two rows, the loop emits the three entries 2, 1, 0. -/
theorem C3_lat_steps_count_and_order_witness :
    (0 : ℚ) < 1 ∧ 2 + 1 ≤ 3 ∧
      (latStepsMercator id 0 1 3 (0 + ((2 : Nat) : ℚ) * 1)
          = (latTraversal 0 1 2).map id ∧
        (latStepsMercator id 0 1 3 (0 + ((2 : Nat) : ℚ) * 1)).length = 2 + 1 ∧
        (latTraversal 0 1 2).Sorted (fun a b => a > b) ∧
        (latStepsMercator id 0 1 3 (0 + ((2 : Nat) : ℚ) * 1)).head?
          = some (id (0 + ((2 : Nat) : ℚ) * 1)) ∧
        (latStepsMercator id 0 1 3 (0 + ((2 : Nat) : ℚ) * 1)).getLast?
          = some (id (0 : ℚ))) :=
  ⟨by norm_num, by norm_num,
    C3_lat_steps_count_and_order id 0 1 2 3 (by norm_num) (by norm_num)⟩

/-- A non-breaking scan over entries that all fail the condition never
updates the accumulator. -/
theorem latIndexNoBreakGo_const (y : ℚ) :
    ∀ (ts : List ℚ) (i acc : Nat), (∀ t ∈ ts, ¬ t ≤ y) →
      latIndexNoBreakGo y ts i acc = acc
  | [], _, _, _ => rfl
  | t :: ts, i, acc, h => by
    unfold latIndexNoBreakGo
    rw [if_neg (h t (by simp))]
    exact latIndexNoBreakGo_const y ts (i + 1) acc (fun u hu => h u (by simp [hu]))

/-- On an ascending table the breaking scan agrees with the full scan from
any start index and accumulator: once an entry fails the condition, every
later entry fails it too, so the full scan records nothing further. -/
theorem latIndexScan_eq_noBreakGo (y : ℚ) :
    ∀ (ts : List ℚ) (i acc : Nat), ts.Sorted (fun a b => a ≤ b) →
      latIndexScan y ts i acc = latIndexNoBreakGo y ts i acc
  | [], _, _, _ => rfl
  | t :: ts, i, acc, hs => by
    obtain ⟨hrel, hts⟩ := List.sorted_cons.mp hs
    by_cases h : t ≤ y
    · unfold latIndexScan latIndexNoBreakGo
      rw [if_pos h, if_pos h]
      exact latIndexScan_eq_noBreakGo y ts (i + 1) i hts
    · unfold latIndexScan latIndexNoBreakGo
      rw [if_neg h, if_neg h]
      exact (latIndexNoBreakGo_const y ts (i + 1) acc
        (fun u hu huy => h (le_trans (hrel u hu) huy))).symm

/-- C5: over a latitude step table whose Mercator y values ascend (the
order produced by the north-to-south construction), the shader's loop that
records the last index satisfying y ≥ table[i] and breaks at the first
failure returns the same index as a full scan taking the largest index with
y ≥ table[i] (0 when none qualifies). -/
theorem C5_break_scan_eq_full_scan (y : ℚ) (table : List ℚ)
    (hsorted : table.Sorted (fun a b => a ≤ b)) :
    latIndexShader y table = latIndexNoBreak y table :=
  latIndexScan_eq_noBreakGo y table 0 0 hsorted

/-- C5 witness: a concrete ascending table and fragment y. -/
theorem C5_break_scan_eq_full_scan_witness :
    (([0, 1, 2] : List ℚ).Sorted (fun a b => a ≤ b)) ∧
      latIndexShader (3 / 2) [0, 1, 2] = latIndexNoBreak (3 / 2) [0, 1, 2] :=
  ⟨by decide, C5_break_scan_eq_full_scan (3 / 2) [0, 1, 2] (by decide)⟩

/-- C6: the projected-space width of one longitude step is the same at
every latitude (the projection's x-coordinate is linear in longitude and
independent of latitude), so the single pair of projection calls made at
the grid's southern edge (`lngStepMercator`) equals the projected width of
every grid column k. -/
theorem C6_lng_step_latitude_independent (latProj : ℚ → ℚ) (swLng swLat stepLng : ℚ) :
    (∀ lat lng : ℚ,
        (mercator latProj (lng + stepLng) lat).1 - (mercator latProj lng lat).1
          = lngStepMercator latProj swLng swLat stepLng)
    ∧ ∀ k : Nat,
        (mercator latProj (swLng + ((k : ℚ) + 1) * stepLng) swLat).1
            - (mercator latProj (swLng + (k : ℚ) * stepLng) swLat).1
          = lngStepMercator latProj swLng swLat stepLng := by
  constructor
  · intro lat lng
    unfold lngStepMercator mercator mercatorX
    ring
  · intro k
    unfold lngStepMercator mercator mercatorX
    ring

/-- Indexing into the flattening of a list of uniform-length rows selects
the expected row and column. -/
theorem flatten_getD_uniform {α : Type} (d : α) (L : Nat) :
    ∀ (rows : List (List α)) (q r : Nat), (∀ row ∈ rows, row.length = L) →
      q < rows.length → r < L →
        rows.flatten.getD (q * L + r) d = (rows.getD q []).getD r d
  | [], q, r, _, hq, _ => absurd hq (by simp)
  | row :: rest, 0, r, hlen, _, hr => by
    have hrow : row.length = L := hlen row (by simp)
    show (row ++ rest.flatten).getD (0 * L + r) d = _
    rw [Nat.zero_mul, Nat.zero_add]
    rw [List.getD_append row rest.flatten d r (by omega)]
    rfl
  | row :: rest, q + 1, r, hlen, hq, hr => by
    have hrow : row.length = L := hlen row (by simp)
    show (row ++ rest.flatten).getD ((q + 1) * L + r) d = _
    rw [List.getD_append_right row rest.flatten d ((q + 1) * L + r) (by nlinarith)]
    have hidx : (q + 1) * L + r - row.length = q * L + r := by
      rw [hrow]
      have hdistrib : (q + 1) * L = q * L + L := by ring
      omega
    rw [hidx]
    rw [flatten_getD_uniform d L rest q r (fun u hu => hlen u (by simp [hu]))
      (by simpa using hq) hr]
    rfl

/-- The length of the flattening of uniform-length rows. -/
theorem flatten_length_uniform {α : Type} (L : Nat) :
    ∀ rows : List (List α), (∀ row ∈ rows, row.length = L) →
      rows.flatten.length = rows.length * L
  | [], _ => by simp
  | row :: rest, hlen => by
    show (row ++ rest.flatten).length = _
    rw [List.length_append,
      flatten_length_uniform L rest (fun u hu => hlen u (by simp [hu])),
      hlen row (by simp), List.length_cons]
    ring

/-- Each output row of the transpose is one column of the input grid. -/
theorem transposeGrid_getElem? (r0 : List Color) (gs : List (List Color)) (i : Nat)
    (hi : i < r0.length) :
    (transposeGrid (r0 :: gs))[i]?
      = some ((r0 :: gs).map (fun row => row.getD i defaultColor)) := by
  unfold transposeGrid
  rw [List.getElem?_map, List.getElem?_range hi]
  rfl

/-- The transpose of a nonempty grid has one row per column of the first
input row. -/
theorem transposeGrid_length (r0 : List Color) (gs : List (List Color)) :
    (transposeGrid (r0 :: gs)).length = r0.length := by
  unfold transposeGrid
  simp

/-- Every row of the transpose has one entry per row of the input grid. -/
theorem transposeGrid_row_length (g : List (List Color)) :
    ∀ row ∈ transposeGrid g, row.length = g.length := by
  intro row hrow
  match g with
  | [] => simp [transposeGrid] at hrow
  | r0 :: gs =>
    unfold transposeGrid at hrow
    obtain ⟨i, _, rfl⟩ := List.mem_map.mp hrow
    simp

/-- Every flattened row of the packing intermediate has 4 bytes per input
grid row. -/
theorem packGridData_row_lengths (g : List (List Color)) (M : Nat)
    (hM : g.length = M) :
    ∀ row ∈ ((transposeGrid g).reverse.map
      (fun row => (row.map rgbaToList).flatten)), row.length = M * 4 := by
  intro row hrow
  obtain ⟨u, hu, rfl⟩ := List.mem_map.mp hrow
  have hu' : u ∈ transposeGrid g := List.mem_reverse.mp hu
  have hulen : u.length = M := by
    rw [transposeGrid_row_length g u hu', hM]
  rw [flatten_length_uniform 4 (u.map rgbaToList) (by
    intro w hw
    obtain ⟨cc, _, rfl⟩ := List.mem_map.mp hw
    rfl)]
  rw [List.length_map, hulen]

/-- Byte-level layout of the packed texture buffer: for a rectangular M×N
color grid, byte c of the texel at row-major texture position
(N - 1 - j) * M + i is component c of the color at grid position
(i, j). -/
theorem packGridData_getD (g : List (List Color)) (M N i j c : Nat)
    (hM : g.length = M) (hrect : ∀ row ∈ g, row.length = N)
    (hg : g ≠ []) (hi : i < M) (hj : j < N) (hc : c < 4) :
    (packGridData g).getD (((N - 1 - j) * M + i) * 4 + c) 0
      = (rgbaToList ((g.getD i []).getD j defaultColor)).getD c 0 := by
  obtain ⟨r0, gs, rfl⟩ : ∃ r0 gs, g = r0 :: gs := by
    cases g with
    | nil => exact absurd rfl hg
    | cons a l => exact ⟨a, l, rfl⟩
  set g := r0 :: gs with hgdef
  have hr0 : r0.length = N := hrect r0 (by simp [hgdef])
  have hTlen : (transposeGrid g).length = N := by
    rw [transposeGrid_length, hr0]
  have hRlen : (transposeGrid g).reverse.length = N := by
    rw [List.length_reverse, hTlen]
  have hProws := packGridData_row_lengths g M hM
  have hPlen : ((transposeGrid g).reverse.map
      (fun row => (row.map rgbaToList).flatten)).length = N := by
    rw [List.length_map, hRlen]
  have hidx : ((N - 1 - j) * M + i) * 4 + c = (N - 1 - j) * (M * 4) + (i * 4 + c) := by
    ring
  unfold packGridData
  rw [hidx]
  rw [flatten_getD_uniform 0 (M * 4) _ (N - 1 - j) (i * 4 + c) hProws
    (by rw [hPlen]; omega) (by omega)]
  have hq : N - 1 - j < (transposeGrid g).reverse.length := by rw [hRlen]; omega
  have hrev : (transposeGrid g).reverse[N - 1 - j]? = (transposeGrid g)[j]? := by
    rw [List.getElem?_reverse (by rw [hTlen]; omega)]
    congr 1
    rw [hTlen]
    omega
  have hcol : (transposeGrid g)[j]?
      = some (g.map (fun row => row.getD j defaultColor)) := by
    rw [hgdef]
    exact transposeGrid_getElem? r0 gs j (by omega)
  have hPq : ((transposeGrid g).reverse.map
      (fun row => (row.map rgbaToList).flatten)).getD (N - 1 - j) []
      = ((g.map (fun row => row.getD j defaultColor)).map rgbaToList).flatten := by
    rw [List.getD_eq_getElem?_getD, List.getElem?_map, hrev, hcol]
    rfl
  rw [hPq]
  rw [flatten_getD_uniform 0 4 _ i c (by
      intro w hw
      obtain ⟨cc, _, rfl⟩ := List.mem_map.mp hw
      rfl)
    (by simpa [hM] using hi) hc]
  have hgi : ((g.map (fun row => row.getD j defaultColor)).map rgbaToList).getD i []
      = rgbaToList ((g.getD i []).getD j defaultColor) := by
    rw [List.getD_eq_getElem?_getD, List.getElem?_map, List.getElem?_map]
    have : g[i]? = some (g.getD i []) := by
      rw [List.getD_eq_getElem?_getD]
      cases hgi' : g[i]? with
      | none =>
        have := List.getElem?_eq_none_iff.mp hgi'
        omega
      | some u => rfl
    rw [this]
    rfl
  rw [hgi]

/-- C7: for every validated rectangular non-empty color grid the packed
texture buffer has exactly gridSize.x * gridSize.y * 4 bytes, so the
internal-consistency guard of `onAdd` can never fire. -/
theorem C7_buffer_length (g : List (List Color)) (M N : Nat)
    (hM : g.length = M) (hrect : ∀ row ∈ g, row.length = N) (hM0 : 0 < M) :
    (packGridData g).length = M * N * 4 ∧
      bufferLengthMismatch M N (packGridData g) = false := by
  obtain ⟨r0, gs, rfl⟩ : ∃ r0 gs, g = r0 :: gs := by
    cases g with
    | nil => simp at hM; omega
    | cons a l => exact ⟨a, l, rfl⟩
  have hr0 : r0.length = N := hrect r0 (by simp)
  have hlen : (packGridData (r0 :: gs)).length = M * N * 4 := by
    unfold packGridData
    rw [flatten_length_uniform (M * 4) _ (packGridData_row_lengths (r0 :: gs) M hM)]
    rw [List.length_map, List.length_reverse, transposeGrid_length, hr0]
    ring
  refine ⟨hlen, ?_⟩
  unfold bufferLengthMismatch
  rw [hlen]
  exact bne_self_eq_false (M * N * 4)

/-- C7 witness: a concrete one-cell grid packs to 4 bytes, and the guard is
false on it. -/
theorem C7_buffer_length_witness :
    ([[(⟨9, 8, 7, 6⟩ : Color)]].length = 1 ∧
        (∀ row ∈ [[(⟨9, 8, 7, 6⟩ : Color)]], row.length = 1) ∧ 0 < 1) ∧
      ((packGridData [[⟨9, 8, 7, 6⟩]]).length = 1 * 1 * 4 ∧
        bufferLengthMismatch 1 1 (packGridData [[⟨9, 8, 7, 6⟩]]) = false) :=
  ⟨⟨by decide, by decide, by decide⟩,
    C7_buffer_length [[⟨9, 8, 7, 6⟩]] 1 1 (by decide) (by decide) (by decide)⟩

/-- Packed-buffer cell lookup through the caller's grid and color function:
byte c of the texel at row-major position (N - 1 - j) * M + i is component
c of the color of cell (i, j). -/
theorem packGridData_cell_getD {T : Type} (getColor : T → Color)
    (dataGrid : List (List T)) (M N i j c : Nat) (row : List T) (v : T)
    (hM : dataGrid.length = M) (hrect : ∀ r ∈ dataGrid, r.length = N)
    (hrow : dataGrid[i]? = some row) (hv : row[j]? = some v) (hc : c < 4) :
    (packGridData (dataGrid.map (fun r => r.map getColor))).getD
        (((N - 1 - j) * M + i) * 4 + c) 0
      = (rgbaToList (getColor v)).getD c 0 := by
  have hi : i < M := by
    by_contra hcon
    push_neg at hcon
    rw [List.getElem?_eq_none (by omega)] at hrow
    cases hrow
  have hmemrow : row ∈ dataGrid := List.getElem?_mem hrow
  have hrowlen : row.length = N := hrect row hmemrow
  have hj : j < N := by
    by_contra hcon
    push_neg at hcon
    rw [List.getElem?_eq_none (by omega)] at hv
    cases hv
  have hgM : (dataGrid.map (fun r => r.map getColor)).length = M := by
    rw [List.length_map, hM]
  have hgrect : ∀ w ∈ dataGrid.map (fun r => r.map getColor), w.length = N := by
    intro w hw
    obtain ⟨r, hr, rfl⟩ := List.mem_map.mp hw
    rw [List.length_map]
    exact hrect r hr
  have hgne : dataGrid.map (fun r => r.map getColor) ≠ [] :=
    List.ne_nil_of_length_pos (by omega)
  rw [packGridData_getD (dataGrid.map (fun r => r.map getColor)) M N i j c
    hgM hgrect hgne hi hj hc]
  have hcell : ((dataGrid.map (fun r => r.map getColor)).getD i []).getD j defaultColor
      = getColor v := by
    have h1 : (dataGrid.map (fun r => r.map getColor))[i]? = some (row.map getColor) := by
      rw [List.getElem?_map, hrow]
      rfl
    rw [List.getD_eq_getElem?_getD (dataGrid.map (fun r => r.map getColor)) i [], h1]
    show (row.map getColor).getD j defaultColor = getColor v
    rw [List.getD_eq_getElem?_getD, List.getElem?_map, hv]
    rfl
  rw [hcell]

/-- C2: for every rectangular M×N grid, the packed texture byte buffer is
the flattening of the row-reversed transpose of the color grid: for all
i < M, j < N, c < 4, buffer[((N - 1 - j) * M + i) * 4 + c] is component c
of getColor(dataGrid[i][j]). -/
theorem C2_packed_buffer_layout {T : Type} (getColor : T → Color)
    (dataGrid : List (List T)) (M N i j c : Nat) (row : List T) (v : T)
    (hM : dataGrid.length = M) (hrect : ∀ r ∈ dataGrid, r.length = N)
    (hrow : dataGrid[i]? = some row) (hv : row[j]? = some v) (hc : c < 4) :
    (packGridData (dataGrid.map (fun r => r.map getColor))).getD
        (((N - 1 - j) * M + i) * 4 + c) 0
      = (rgbaToList (getColor v)).getD c 0 :=
  packGridData_cell_getD getColor dataGrid M N i j c row v hM hrect hrow hv hc

/-- C2 witness: in the 2×2 grid [[1, 2], [3, 4]] with getColor mapping n to
red component n, byte 0 of texel (N - 1 - j) * M + i for cell (0, 1) equals
the red component of getColor 2. -/
theorem C2_packed_buffer_layout_witness :
    (([[1, 2], [3, 4]] : List (List Nat)).length = 2 ∧
        (∀ r ∈ ([[1, 2], [3, 4]] : List (List Nat)), r.length = 2) ∧
        ([[1, 2], [3, 4]] : List (List Nat))[0]? = some [1, 2] ∧
        ([1, 2] : List Nat)[1]? = some 2 ∧ 0 < 4) ∧
      (packGridData (([[1, 2], [3, 4]] : List (List Nat)).map
            (fun r => r.map (fun n => (⟨n, 0, 0, 255⟩ : Color))))).getD
          (((2 - 1 - 1) * 2 + 0) * 4 + 0) 0
        = (rgbaToList ((fun n : Nat => (⟨n, 0, 0, 255⟩ : Color)) 2)).getD 0 0 :=
  ⟨⟨by decide, by decide, by decide, by decide, by decide⟩,
    C2_packed_buffer_layout (fun n => ⟨n, 0, 0, 255⟩) [[1, 2], [3, 4]] 2 2 0 1 0
      [1, 2] 2 (by decide) (by decide) (by decide) (by decide) (by decide)⟩

/-- Characterization of the shader's breaking scan when the entry condition
holds exactly for the first m entries: with a nonzero such m the scan
returns the index of the last of them, and with m = 0 it returns the
accumulator unchanged. -/
theorem latIndexScan_of_cond (y : ℚ) :
    ∀ (ts : List ℚ) (i acc m : Nat),
      (∀ (k : Nat) (t : ℚ), ts[k]? = some t → (t ≤ y ↔ k < m)) →
      m ≤ ts.length →
      (0 < m → latIndexScan y ts i acc = i + m - 1) ∧
      (m = 0 → latIndexScan y ts i acc = acc)
  | [], i, acc, m, _, hlen => by
    constructor
    · intro hm
      simp at hlen
      omega
    · intro _
      rfl
  | t :: ts, i, acc, m, hcond, hlen => by
    have h0 : t ≤ y ↔ 0 < m := hcond 0 t (by simp)
    constructor
    · intro hm
      unfold latIndexScan
      rw [if_pos (h0.mpr hm)]
      have hcond' : ∀ (k : Nat) (u : ℚ), ts[k]? = some u → (u ≤ y ↔ k < m - 1) := by
        intro k u hk
        have hk1 := hcond (k + 1) u (by simpa using hk)
        constructor
        · intro hu
          have := hk1.mp hu
          omega
        · intro hku
          exact hk1.mpr (by omega)
      have hlen' : m - 1 ≤ ts.length := by
        simp at hlen
        omega
      have ih := latIndexScan_of_cond y ts (i + 1) i (m - 1) hcond' hlen'
      by_cases hm1 : m = 1
      · rw [ih.2 (by omega)]
        omega
      · rw [ih.1 (by omega)]
        omega
    · intro hm
      unfold latIndexScan
      rw [if_neg (fun hty => absurd (h0.mp hty) (by omega))]

/-- A strictly antitone latitude projection reverses order comparisons. -/
theorem anti_le_iff (proj : ℚ → ℚ) (hanti : ∀ a b : ℚ, a < b → proj b < proj a)
    (a b : ℚ) : proj a ≤ proj b ↔ b ≤ a := by
  constructor
  · intro h
    by_contra hc
    push_neg at hc
    exact absurd h (not_le.mpr (hanti a b hc))
  · intro h
    rcases lt_or_eq_of_le h with h' | h'
    · exact le_of_lt (hanti b a h')
    · rw [h']

/-- The floor of a natural number plus one half is that number. -/
theorem floor_nat_add_half (i : Nat) : ⌊(i : ℚ) + 1 / 2⌋ = (i : ℤ) := by
  have hcast : ((i : ℤ) : ℚ) = (i : ℚ) := by push_cast; ring
  rw [← hcast, Int.floor_int_add]
  have h12 : ⌊(1 / 2 : ℚ)⌋ = 0 := by
    rw [Int.floor_eq_zero_iff]
    constructor
    · norm_num
    · norm_num
  rw [h12, add_zero]

/-- Nearest-neighbor sampling at the normalized coordinate k / size selects
texel k, for k inside the texture. -/
theorem texelIndex_exact (k size : Nat) (hk : k < size) :
    texelIndex ((k : ℚ) / (size : ℚ)) size = k := by
  unfold texelIndex
  have hs : ((size : ℚ)) ≠ 0 := Nat.cast_ne_zero.mpr (by omega)
  rw [div_mul_cancel₀ _ hs, Int.floor_natCast]
  rw [Int.toNat_natCast]
  exact min_eq_right (by omega)

/-- C1: the Fragment Lookup Protocol applied to the projected coordinates
of the exact geographic center of cell (i, j) — longitude index by floored
division against the data bounds' top-left x and the single longitude step,
latitude index by the breaking table scan over the constructed step table,
then the nearest-neighbor texture sample through the transposed,
row-reversed packed buffer — returns exactly getColor(dataGrid[i][j]). The
latitude projection is abstract and strictly decreasing, and coordinates
are exact rationals. -/
theorem C1_cell_center_roundtrip {T : Type} (getColor : T → Color) (latProj : ℚ → ℚ)
    (dataGrid : List (List T)) (M N i j : Nat) (row : List T) (v : T)
    (offsetLng offsetLat stepLng stepLat : ℚ) (fuel : Nat)
    (hM : dataGrid.length = M) (hrect : ∀ r ∈ dataGrid, r.length = N)
    (hrow : dataGrid[i]? = some row) (hv : row[j]? = some v)
    (hstepLng : 0 < stepLng) (hstepLat : 0 < stepLat)
    (hanti : ∀ a b : ℚ, a < b → latProj b < latProj a)
    (hfuel : N + 1 ≤ fuel) :
    fragmentLookup
        (mercator latProj offsetLng (offsetLat + (N : ℚ) * stepLat)).1
        (lngStepMercator latProj offsetLng offsetLat stepLng)
        (latStepsMercator latProj offsetLat stepLat fuel
          (offsetLat + (N : ℚ) * stepLat))
        M N
        (packGridData (dataGrid.map (fun r => r.map getColor)))
        (mercator latProj (offsetLng + ((i : ℚ) + 1 / 2) * stepLng)
          (offsetLat + ((j : ℚ) + 1 / 2) * stepLat)).1
        (mercator latProj (offsetLng + ((i : ℚ) + 1 / 2) * stepLng)
          (offsetLat + ((j : ℚ) + 1 / 2) * stepLat)).2
      = rgbaToList (getColor v) := by
  have hi : i < M := by
    by_contra hc
    push_neg at hc
    rw [List.getElem?_eq_none (by omega)] at hrow
    cases hrow
  have hmemrow : row ∈ dataGrid := List.getElem?_mem hrow
  have hrowlen : row.length = N := hrect row hmemrow
  have hj : j < N := by
    by_contra hc
    push_neg at hc
    rw [List.getElem?_eq_none (by omega)] at hv
    cases hv
  have hfloor : ⌊((mercator latProj (offsetLng + ((i : ℚ) + 1 / 2) * stepLng)
        (offsetLat + ((j : ℚ) + 1 / 2) * stepLat)).1
      - (mercator latProj offsetLng (offsetLat + (N : ℚ) * stepLat)).1)
      / lngStepMercator latProj offsetLng offsetLat stepLng⌋ = (i : ℤ) := by
    have hdiv : ((mercator latProj (offsetLng + ((i : ℚ) + 1 / 2) * stepLng)
          (offsetLat + ((j : ℚ) + 1 / 2) * stepLat)).1
        - (mercator latProj offsetLng (offsetLat + (N : ℚ) * stepLat)).1)
        / lngStepMercator latProj offsetLng offsetLat stepLng
        = (i : ℚ) + 1 / 2 := by
      unfold lngStepMercator mercator mercatorX
      have hs : stepLng ≠ 0 := ne_of_gt hstepLng
      field_simp
      ring
    rw [hdiv, floor_nat_add_half]
  have htable := latStepsMercator_eq_map latProj offsetLat stepLat hstepLat N fuel
    hfuel (offsetLat + (N : ℚ) * stepLat) rfl
  have hcond : ∀ (k : Nat) (t : ℚ),
      ((List.range (N + 1)).map (fun k : Nat =>
        latProj (offsetLat + (N : ℚ) * stepLat - (k : ℚ) * stepLat)))[k]? = some t →
      (t ≤ (mercator latProj (offsetLng + ((i : ℚ) + 1 / 2) * stepLng)
        (offsetLat + ((j : ℚ) + 1 / 2) * stepLat)).2 ↔ k < N - j) := by
    intro k t hk
    rw [List.getElem?_map] at hk
    have hkN : k < N + 1 := by
      by_contra hc
      push_neg at hc
      rw [List.getElem?_eq_none (by simpa using hc)] at hk
      cases hk
    rw [List.getElem?_range hkN] at hk
    have ht : t = latProj (offsetLat + (N : ℚ) * stepLat - (k : ℚ) * stepLat) := by
      cases hk
      rfl
    subst ht
    show latProj (offsetLat + (N : ℚ) * stepLat - (k : ℚ) * stepLat)
        ≤ latProj (offsetLat + ((j : ℚ) + 1 / 2) * stepLat) ↔ k < N - j
    rw [anti_le_iff latProj hanti]
    constructor
    · intro h
      have hq : (k : ℚ) + (j : ℚ) + 1 / 2 ≤ (N : ℚ) := by nlinarith
      have hq' : (k : ℚ) + (j : ℚ) < (N : ℚ) := by linarith
      have hkj : k + j < N := by exact_mod_cast hq'
      omega
    · intro h
      have hkj : k + j + 1 ≤ N := by omega
      have hq : (k : ℚ) + (j : ℚ) + 1 ≤ (N : ℚ) := by exact_mod_cast hkj
      nlinarith
  have hscan : latIndexShader
      (mercator latProj (offsetLng + ((i : ℚ) + 1 / 2) * stepLng)
        (offsetLat + ((j : ℚ) + 1 / 2) * stepLat)).2
      (latStepsMercator latProj offsetLat stepLat fuel
        (offsetLat + (N : ℚ) * stepLat)) = N - j - 1 := by
    unfold latIndexShader
    rw [htable]
    have hchar := latIndexScan_of_cond
      (mercator latProj (offsetLng + ((i : ℚ) + 1 / 2) * stepLng)
        (offsetLat + ((j : ℚ) + 1 / 2) * stepLat)).2
      ((List.range (N + 1)).map (fun k : Nat =>
        latProj (offsetLat + (N : ℚ) * stepLat - (k : ℚ) * stepLat)))
      0 0 (N - j) hcond (by simp; omega)
    rw [hchar.1 (by omega)]
    omega
  unfold fragmentLookup
  rw [hfloor, hscan]
  unfold sampleTexture
  dsimp only
  have hcasti : (((i : ℕ) : ℤ) : ℚ) = ((i : ℕ) : ℚ) := by push_cast; ring
  rw [hcasti, texelIndex_exact i M hi, texelIndex_exact (N - j - 1) N (by omega)]
  have hco : N - j - 1 = N - 1 - j := by omega
  rw [hco]
  have hc0 := packGridData_cell_getD getColor dataGrid M N i j 0 row v
    hM hrect hrow hv (by omega)
  have hc1 := packGridData_cell_getD getColor dataGrid M N i j 1 row v
    hM hrect hrow hv (by omega)
  have hc2 := packGridData_cell_getD getColor dataGrid M N i j 2 row v
    hM hrect hrow hv (by omega)
  have hc3 := packGridData_cell_getD getColor dataGrid M N i j 3 row v
    hM hrect hrow hv (by omega)
  simp only [Nat.add_zero] at hc0
  rw [hc0, hc1, hc2, hc3]
  rcases hcv : getColor v with ⟨r, g, b, a⟩
  simp [rgbaToList]

/-- C1 witness: concrete 2×2 grid, unit steps at the origin, negation as
the (strictly decreasing) latitude projection, cell (0, 1). -/
theorem C1_cell_center_roundtrip_witness :
    (([[1, 2], [3, 4]] : List (List Nat)).length = 2 ∧
        (∀ r ∈ ([[1, 2], [3, 4]] : List (List Nat)), r.length = 2) ∧
        ([[1, 2], [3, 4]] : List (List Nat))[0]? = some [1, 2] ∧
        ([1, 2] : List Nat)[1]? = some 2 ∧
        (0 : ℚ) < 1 ∧ 2 + 1 ≤ 3) ∧
      fragmentLookup
          (mercator (fun q => -q) 0 (0 + ((2 : Nat) : ℚ) * 1)).1
          (lngStepMercator (fun q => -q) 0 0 1)
          (latStepsMercator (fun q => -q) 0 1 3 (0 + ((2 : Nat) : ℚ) * 1))
          2 2
          (packGridData (([[1, 2], [3, 4]] : List (List Nat)).map
            (fun r => r.map (fun n => (⟨n, 0, 0, 255⟩ : Color)))))
          (mercator (fun q => -q) (0 + (((0 : Nat) : ℚ) + 1 / 2) * 1)
            (0 + (((1 : Nat) : ℚ) + 1 / 2) * 1)).1
          (mercator (fun q => -q) (0 + (((0 : Nat) : ℚ) + 1 / 2) * 1)
            (0 + (((1 : Nat) : ℚ) + 1 / 2) * 1)).2
        = rgbaToList ((fun n : Nat => (⟨n, 0, 0, 255⟩ : Color)) 2) :=
  ⟨⟨by decide, by decide, by decide, by decide, by norm_num, by norm_num⟩,
    C1_cell_center_roundtrip (fun n => ⟨n, 0, 0, 255⟩) (fun q => -q)
      [[1, 2], [3, 4]] 2 2 0 1 [1, 2] 2 0 0 1 1 3
      (by decide) (by decide) (by decide) (by decide)
      (by norm_num) (by norm_num)
      (fun a b h => neg_lt_neg h) (by norm_num)⟩

end ChoroplethGrid
